import Mathlib

/-!
Shallow embedding of the version-outdatedness comparator and the package
record normalizer of `src/versade/services/checker.py` (class
`DependencyChecker`), together with proofs about the specification's
claims.  Python strings are modelled as Lean `String`/`List Char`; the
regular expressions `^([0-9.]+)[-.]?(.+)?$` (in `_split_version`) and
`\d+` (in `_compare_release_versions`) are embedded with their exact
backtracking semantics, restricted to ASCII digits (Python's `\d` also
matches non-ASCII Unicode decimal digits; no claim depends on that
difference).
-/

namespace Versade

/-- Character class `[0-9]`, i.e. Python's `\d` restricted to ASCII. -/
def isDig (c : Char) : Bool := 48 ≤ c.toNat && c.toNat ≤ 57

/-- Character class `[0-9.]` from the release-part regex. -/
def isDotDig (c : Char) : Bool := isDig c || c == '.'

/-- Matcher for the regex fragment `(.+)?$` against the remainder `r` of the
subject: `.` matches any character except a newline, `+` is greedy, and `$`
matches at the very end or just before a single trailing newline.  Returns
`none` when the fragment cannot match, otherwise the text captured by the
group (or `none` for the empty alternative of `?`). -/
def tailMatch (r : List Char) : Option (Option (List Char)) :=
  let core := if r.getLast? = some '\n' then r.dropLast else r
  if core.contains '\n' then none
  else some (if core.isEmpty then none else some core)

/-- Matcher for `[-.]?(.+)?$` against the remainder `r`: the greedy `?` first
tries to consume a leading `-` or `.`, backtracking to the empty alternative
when the rest of the pattern fails. -/
def sepThenRest (r : List Char) : Option (Option (List Char)) :=
  match r with
  | [] => tailMatch []
  | c :: rest =>
    if c == '-' || c == '.' then
      match tailMatch rest with
      | some g => some g
      | none => tailMatch r
    else tailMatch r

/-- Backtracking loop of `re.match(r'^([0-9.]+)[-.]?(.+)?$', version)`: the
greedy `[0-9.]+` tries group-1 lengths from `k` (the longest run) down to 1.
Returns the pair (group 1, group 2 or "") on success. -/
def tryK : Nat → List Char → Option (List Char × List Char)
  | 0, _ => none
  | k + 1, s =>
    match sepThenRest (s.drop (k + 1)) with
    | some g => some (s.take (k + 1), g.getD [])
    | none => tryK k s

/-- Embedding of `DependencyChecker._split_version`: split a version string
into a release part and a prerelease part via
`re.match(r'^([0-9.]+)[-.]?(.+)?$', version)`; when the regex does not match,
the whole string is the release part and the prerelease part is empty. -/
def split_version (version : String) : String × String :=
  let cs := version.data
  let lead := cs.takeWhile isDotDig
  match tryK lead.length cs with
  | some g => (String.mk g.1, String.mk g.2)
  | none => (version, "")

/-- All maximal runs of ASCII digits in a character list, accumulator form;
`acc` holds the reversed current run. -/
def digitRunsAux : List Char → List Char → List (List Char)
  | [], acc => if acc.isEmpty then [] else [acc.reverse]
  | c :: cs, acc =>
    if isDig c then digitRunsAux cs (c :: acc)
    else if acc.isEmpty then digitRunsAux cs []
    else acc.reverse :: digitRunsAux cs []

/-- Embedding of `re.findall(r'\d+', s)`: the maximal digit runs of `s`. -/
def digitRuns (cs : List Char) : List (List Char) := digitRunsAux cs []

/-- Decimal value of a digit run, i.e. Python's `int` applied to a string of
digits. -/
def natOfDigits (cs : List Char) : Nat :=
  cs.foldl (fun n c => 10 * n + (c.toNat - 48)) 0

/-- The integer components of a release part:
`[int(part) for part in re.findall(r'\d+', s)]`. -/
def releaseParts (s : String) : List Nat := (digitRuns s.data).map natOfDigits

/-- Embedding of the comparison loop of `_compare_release_versions`:
`for c, l in zip(...): if c < l: return -1; elif c > l: return 1; return 0`
(`zip` stops at the shorter list). -/
def cmpLoop : List Nat → List Nat → Int
  | c :: cs, l :: ls => if c < l then -1 else if c > l then 1 else cmpLoop cs ls
  | _, _ => 0

/-- Embedding of `DependencyChecker._compare_release_versions`: tokenize both
release parts into digit runs, right-pad the shorter integer list with zeros
(two sequential `while` loops in the source), then compare component-wise. -/
def compare_release_versions (current latest : String) : Int :=
  let current_parts := releaseParts current
  let latest_parts := releaseParts latest
  let current_parts' :=
    current_parts ++ List.replicate (latest_parts.length - current_parts.length) 0
  let latest_parts' :=
    latest_parts ++ List.replicate (current_parts'.length - latest_parts.length) 0
  cmpLoop current_parts' latest_parts'

/-- Embedding of Python's `<` on strings (lexicographic by code point, a
proper prefix sorts first), specialised to the prerelease comparison
`current_prerelease < latest_prerelease`. -/
def lexLt : List Char → List Char → Bool
  | _, [] => false
  | [], _ :: _ => true
  | a :: as, b :: bs => if a < b then true else if b < a then false else lexLt as bs

/-- Embedding of `DependencyChecker._compare_versions`: `true` iff `current`
is outdated relative to `latest`. -/
def compare_versions (current latest : String) : Bool :=
  if current = latest then false
  else
    let cs := split_version current
    let ls := split_version latest
    let release_comparison := compare_release_versions cs.1 ls.1
    if release_comparison = 0 then
      if cs.2 ≠ "" ∧ ls.2 = "" then true
      else if cs.2 = "" ∧ ls.2 ≠ "" then false
      else if cs.2 ≠ "" ∧ ls.2 ≠ "" then lexLt cs.2.data ls.2.data
      else false
    else decide (release_comparison < 0)

/-- The suffix tie-break policy exactly as the specification words it
(section 4.1 step 5), stated independently of the comparator's code so that
the comparator can be proved to refine it. -/
def suffixTieBreak (cpre lpre : String) : Bool :=
  if cpre ≠ "" ∧ lpre = "" then true
  else if cpre = "" ∧ lpre ≠ "" then false
  else if cpre ≠ "" ∧ lpre ≠ "" then lexLt cpre.data lpre.data
  else false

/-- Zero-padded integer-tuple comparison exactly as the specification words
it (section 4.1 step 3): right-pad the shorter sequence with zeros to a
common length, then compare component-wise. -/
def specReleaseCmp (a b : List Nat) : Int :=
  let m := max a.length b.length
  cmpLoop (a ++ List.replicate (m - a.length) 0) (b ++ List.replicate (m - b.length) 0)

/-- Dotted decimal rendering of an integer tuple, e.g. `[1, 9]` to `"1.9"`;
this is the version-string image `str` of a numeric tuple used by the
specification's testable properties. -/
def natRepr (n : Nat) : List Char :=
  if n < 10 then [Nat.digitChar n]
  else natRepr (n / 10) ++ [Nat.digitChar (n % 10)]

/-- Character list of the dotted rendering of an integer tuple. -/
def renderList : List Nat → List Char
  | [] => []
  | [n] => natRepr n
  | n :: m :: rest => natRepr n ++ '.' :: renderList (m :: rest)

/-- Dotted decimal version string of an integer tuple. -/
def renderVer (a : List Nat) : String := String.mk (renderList a)

/-- Fallible model of Python's `int` at the comparator's call sites: defined
(and equal to `natOfDigits`) only on non-empty all-digit strings, `none`
otherwise.  This under-approximates `int` (which also accepts signs,
surrounding whitespace and underscores), which only strengthens the totality
theorem proved with it. -/
def intChecked (r : List Char) : Option Nat :=
  if r ≠ [] ∧ r.all isDig = true then some (natOfDigits r) else none

/-- Release-part tokenizer with the fallible `int`. -/
def releasePartsChecked (s : String) : Option (List Nat) :=
  (digitRuns s.data).mapM intChecked

/-- `_compare_release_versions` with the fallible `int`. -/
def crvChecked (current latest : String) : Option Int := do
  let current_parts ← releasePartsChecked current
  let latest_parts ← releasePartsChecked latest
  let current_parts' :=
    current_parts ++ List.replicate (latest_parts.length - current_parts.length) 0
  let latest_parts' :=
    latest_parts ++ List.replicate (current_parts'.length - latest_parts.length) 0
  pure (cmpLoop current_parts' latest_parts')

/-- `_compare_versions` where every integer-parsing step is threaded through
`Option`: a `none` result would correspond to a raised exception in the
Python source. -/
def compare_versions_checked (current latest : String) : Option Bool :=
  if current = latest then some false
  else do
    let cs := split_version current
    let ls := split_version latest
    let release_comparison ← crvChecked cs.1 ls.1
    if release_comparison = 0 then
      if cs.2 ≠ "" ∧ ls.2 = "" then pure true
      else if cs.2 = "" ∧ ls.2 ≠ "" then pure false
      else if cs.2 ≠ "" ∧ ls.2 ≠ "" then pure (lexLt cs.2.data ls.2.data)
      else pure false
    else pure (decide (release_comparison < 0))

/-!
Embedding of the Package Record Normalizer, `check_python_package` and
`check_npm_package`.  Decoded registry responses are modelled as a JSON value
type `JVal`; integers stand in for JSON numbers (no claim touches numeric
fields).  Python dictionary indexing, `.get`, `.items()`, iteration, the `in`
operator, truthiness, `str`, `or` (with its short-circuit evaluation) and
`str.replace` are each embedded; raised exceptions become `Except PyErr`.
The network calls themselves are external to the normalizer: each checker
takes the already-decoded registry record as an argument, and the PyPI
security-advisory lookup (whose failures the source swallows into a
best-effort list) is a parameter. -/

/-- Decoded JSON value, the shape of a parsed registry response. -/
inductive JVal : Type where
  | jnull
  | jbool (b : Bool)
  | jnum (n : Int)
  | jstr (s : String)
  | jarr (xs : List JVal)
  | jobj (fields : List (String × JVal))

/-- A raised Python exception, reduced to the string `str(e)` that the
handler interpolates into its error message. -/
structure PyErr where
  msg : String

/-- The single-quote character, written via its code point. -/
def quoteChar : Char := Char.ofNat 39

/-- Python's `str(KeyError(k))`, which is `repr(k)` for a string key. -/
def keyErrStr (k : String) : String :=
  String.singleton quoteChar ++ k ++ String.singleton quoteChar

/-- First binding of a key in a JSON object (keys of a decoded JSON object
are unique, so first-match lookup is exact). -/
def lookupField : List (String × JVal) → String → Option JVal
  | [], _ => none
  | (k, v) :: rest, key => if k = key then some v else lookupField rest key

/-- Python `v[k]` for a string key: `KeyError` on a missing key, `TypeError`
on a non-dict value (the `TypeError` text is approximated; no claim inspects
it). -/
def subscript (v : JVal) (k : String) : Except PyErr JVal :=
  match v with
  | .jobj fields =>
    match lookupField fields k with
    | some x => .ok x
    | none => .error ⟨keyErrStr k⟩
  | _ => .error ⟨"TypeError: value is not subscriptable at key " ++ keyErrStr k⟩

/-- Python `v.get(k, default)`: `AttributeError` on a non-dict value. -/
def dictGet (v : JVal) (k : String) (dflt : JVal) : Except PyErr JVal :=
  match v with
  | .jobj fields => .ok ((lookupField fields k).getD dflt)
  | _ => .error ⟨"AttributeError: value has no attribute get"⟩

/-- Python `v.items()` on a dict. -/
def jvalItems (v : JVal) : Except PyErr (List (String × JVal)) :=
  match v with
  | .jobj fields => .ok fields
  | _ => .error ⟨"AttributeError: value has no attribute items"⟩

/-- Python iteration `for x in v`: lists yield elements, strings yield
one-character strings, dicts yield keys, everything else raises. -/
def pyIter (v : JVal) : Except PyErr (List JVal) :=
  match v with
  | .jarr xs => .ok xs
  | .jstr s => .ok (s.data.map fun c => .jstr (String.singleton c))
  | .jobj fields => .ok (fields.map fun f => JVal.jstr f.1)
  | _ => .error ⟨"TypeError: value is not iterable"⟩

/-- Python truthiness of a decoded JSON value. -/
def truthy : JVal → Bool
  | .jnull => false
  | .jbool b => b
  | .jnum n => decide (n ≠ 0)
  | .jstr s => decide (s ≠ "")
  | .jarr xs => !xs.isEmpty
  | .jobj fields => !fields.isEmpty

mutual

/-- Python `repr` of a decoded JSON value (string reprs are shown with
single quotes and without escaping — no claim exercises reprs of strings
containing quotes). -/
def pyRepr : JVal → String
  | .jnull => "None"
  | .jbool b => if b then "True" else "False"
  | .jnum n => toString n
  | .jstr s => String.singleton quoteChar ++ s ++ String.singleton quoteChar
  | .jarr xs => "[" ++ pyReprSeq xs ++ "]"
  | .jobj fields => "\x7b" ++ pyReprFields fields ++ "\x7d"

/-- Comma-separated reprs of list elements. -/
def pyReprSeq : List JVal → String
  | [] => ""
  | [x] => pyRepr x
  | x :: y :: rest => pyRepr x ++ ", " ++ pyReprSeq (y :: rest)

/-- Comma-separated `key: value` reprs of dict entries. -/
def pyReprFields : List (String × JVal) → String
  | [] => ""
  | [(k, v)] => pyRepr (.jstr k) ++ ": " ++ pyRepr v
  | (k, v) :: g :: rest => pyRepr (.jstr k) ++ ": " ++ pyRepr v ++ ", " ++ pyReprFields (g :: rest)

end

/-- Python `str` of a decoded JSON value. -/
def pyStr (v : JVal) : String :=
  match v with
  | .jstr s => s
  | _ => pyRepr v

/-- Python `a or b` on already-evaluated values. -/
def pyOr (a b : JVal) : JVal := if truthy a then a else b

/-- Substring test on character lists, i.e. Python's `needle in hay` for
strings (the empty needle is contained everywhere). -/
def listIsInfix (needle : List Char) : List Char → Bool
  | [] => needle.isEmpty
  | c :: rest => needle.isPrefixOf (c :: rest) || listIsInfix needle rest

/-- Python `needle in hay` for strings. -/
def isSub (needle hay : String) : Bool := listIsInfix needle.data hay.data

/-- Python `s.lower()` restricted to ASCII (labels in the claims are
ASCII). -/
def lowerStr (s : String) : String := String.mk (s.data.map Char.toLower)

/-- Python `needle in v` for a string needle against an arbitrary container:
substring for strings, element equality for lists, key containment for
dicts, `TypeError` otherwise. -/
def pyIn (needle : String) (v : JVal) : Except PyErr Bool :=
  match v with
  | .jstr s => .ok (isSub needle s)
  | .jarr xs => .ok (xs.any fun x => match x with | .jstr t => decide (t = needle) | _ => false)
  | .jobj fields => .ok (fields.any fun f => decide (f.1 = needle))
  | _ => .error ⟨"TypeError: argument of type is not iterable"⟩

/-- Left-to-right, non-overlapping replacement of a non-empty pattern; the
fuel argument (instantiated with the subject length) only serves
termination and never runs out. -/
def replAux (old new : List Char) : Nat → List Char → List Char
  | _, [] => []
  | 0, hay => hay
  | fuel + 1, c :: rest =>
    if old.isPrefixOf (c :: rest) then
      new ++ replAux old new fuel (List.drop old.length (c :: rest))
    else
      c :: replAux old new fuel rest

/-- Replacement text interleaved around every character, Python's
`s.replace("", new)`. -/
def interleave (new : List Char) : List Char → List Char
  | [] => new
  | c :: rest => new ++ c :: interleave new rest

/-- Python `s.replace(old, new)`: every non-overlapping occurrence,
scanning left to right. -/
def strReplace (s old new : String) : String :=
  if old.data.isEmpty then String.mk (interleave new.data s.data)
  else String.mk (replAux old.data new.data s.data.length s.data)

/-- Error codes of `versade.models.core.ErrorCode` (a near-identical copy
lives at `src/versa/models/core.py`; the checker only ever uses
`TOOL_EXECUTION_ERROR`). -/
inductive ErrorCode : Type where
  | INTERNAL_ERROR
  | INVALID_REQUEST
  | INVALID_PARAMS
  | TOOL_NOT_FOUND
  | TOOL_EXECUTION_ERROR

/-- The `McpError` exception: an error code plus a message. -/
structure McpError where
  code : ErrorCode
  message : String

/-- The `PackageInfo` dataclass of `models/core.py`.  The dataclass performs
no coercion, so each metadata field holds exactly the Python value the
checker assigned; those dynamically-typed values are modelled as `JVal`
(`.jnull` for `None`, `.jstr` for strings). -/
structure PackageInfo where
  name : String
  current_version : String
  latest_version : String
  is_outdated : Bool
  homepage : JVal
  description : JVal
  release_date : JVal
  security_issues : List JVal
  documentation_url : JVal
  api_docs_url : JVal
  mypy_stub_url : JVal
  github_url : JVal



/-- One iteration of the `for label, url in project_urls.items()` loop of
`check_python_package`: the state is the current
(documentation_url, api_docs_url, github_url) triple, and a matching label
unconditionally overwrites its category's slot. -/
def scanStep (st : JVal × JVal × JVal) (e : String × JVal) : JVal × JVal × JVal :=
  let ll := lowerStr e.1
  if isSub "documentation" ll || isSub "docs" ll then (e.2, st.2.1, st.2.2)
  else if isSub "api" ll then (st.1, e.2, st.2.2)
  else if isSub "github" ll || isSub "source" ll || isSub "repository" ll then
    (st.1, st.2.1, e.2)
  else st

/-- The `for file_info in pypi_data.get("urls", [])` loop: true as soon as a
file entry has `packagetype == "sdist"` (the `break`), raising when an entry
does not support `.get`. -/
def findSdist : List JVal → Except PyErr Bool
  | [] => .ok false
  | f :: rest => do
    let pt ← dictGet f "packagetype" .jnull
    match pt with
    | .jstr s => if s = "sdist" then pure true else findSdist rest
    | _ => findSdist rest

/-- The typeshed stubs URL built for every non-empty package name. -/
def typeshedURL (package_name : String) : String :=
  "https://github.com/python/typeshed/tree/master/stubs/" ++ package_name

/-- The `McpError` that `check_python_package` raises: code
`TOOL_EXECUTION_ERROR` and the message
`f"Error checking Python package {package_name}: {str(e)}"`. -/
def python_pkg_error (package_name cause : String) : McpError :=
  ⟨ErrorCode.TOOL_EXECUTION_ERROR,
    "Error checking Python package " ++ package_name ++ ": " ++ cause⟩

/-- The `McpError` that `check_npm_package` raises. -/
def npm_pkg_error (package_name cause : String) : McpError :=
  ⟨ErrorCode.TOOL_EXECUTION_ERROR,
    "Error checking npm package " ++ package_name ++ ": " ++ cause⟩

/-- Python `version or latest_version` for the `Optional[str]` argument. -/
def versionOrLatest (version : Option String) (latest_version : String) : String :=
  match version with
  | some v => if v ≠ "" then v else latest_version
  | none => latest_version

/-- Python `a or b` where evaluating either operand may raise: `a` is
evaluated first and returned when truthy; only then is `b` evaluated.
(For these pure exception values the short-circuit order is observationally
the order in which errors propagate.) -/
def pyOrE (a b : Except PyErr JVal) : Except PyErr JVal := do
  let x ← a
  if truthy x then pure x else b

/-- The documentation-URL fallback of `check_python_package`:
`if not documentation_url: documentation_url =
project_urls.get("Documentation") or project_urls.get("Homepage") or
homepage`. -/
def docResolve (scanned_doc : JVal) (project_urls : JVal) (homepage : String) :
    Except PyErr JVal :=
  if truthy scanned_doc then pure scanned_doc
  else pyOrE (dictGet project_urls "Documentation" .jnull)
    (pyOrE (dictGet project_urls "Homepage" .jnull) (pure (.jstr homepage)))

/-- The release-date extraction of `check_python_package`: the stringified
`upload_time` (defaulting to `""`) of the first file entry when the release
list is a non-empty list, `None` otherwise. -/
def releaseDateOf (release_info : JVal) : Except PyErr JVal :=
  match release_info with
  | .jarr (first :: _) => do
      let ut ← dictGet first "upload_time" (.jstr "")
      pure (JVal.jstr (pyStr ut))
  | _ => pure JVal.jnull

/-- The GitHub-URL normalization of `check_npm_package`: for a dict
repository take `repository.get("url", "")`, for a string use it directly;
when the value contains "github.com", strip every occurrence of `git+` and
then of `.git` (Python `str.replace` replaces all occurrences); `None`
otherwise. -/
def githubOf (repository : JVal) : Except PyErr JVal :=
  match repository with
  | .jobj rfields => do
      let repo_url ← dictGet (.jobj rfields) "url" (.jstr "")
      let b ← pyIn "github.com" repo_url
      if b then
        match repo_url with
        | .jstr s => pure (JVal.jstr (strReplace (strReplace s "git+" "") ".git" ""))
        | _ => Except.error ⟨"AttributeError: value has no attribute replace"⟩
      else pure JVal.jnull
  | .jstr s =>
      pure (if isSub "github.com" s then
        JVal.jstr (strReplace (strReplace s "git+" "") ".git" "")
      else JVal.jnull)
  | _ => pure JVal.jnull

/-- The release-date extraction of `check_npm_package`:
`if latest_version and "time" in npm_data: npm_data["time"].get(latest_version)`. -/
def npmReleaseDate (latest_version : String) (npm_data : JVal) : Except PyErr JVal :=
  if latest_version ≠ "" then do
    let b ← pyIn "time" npm_data
    if b then do
      let tv ← subscript npm_data "time"
      dictGet tv latest_version .jnull
    else pure JVal.jnull
  else pure JVal.jnull

/-- Body of the `try` block of `check_python_package`, in source order; the
`security_issues` parameter stands for the best-effort advisory lookup whose
exceptions the source swallows (empty list on failure). -/
def pypiBody (package_name : String) (version : Option String) (pypi_data : JVal)
    (security_issues : List JVal) : Except PyErr PackageInfo := do
  let info0 ← subscript pypi_data "info"
  let v ← subscript info0 "version"
  let latest_version := pyStr v
  let hpv ← pyOrE
    (do
      let info1 ← subscript pypi_data "info"
      subscript info1 "home_page")
    (pyOrE
      (do
        let info2 ← subscript pypi_data "info"
        subscript info2 "project_url")
      (pure (.jstr ("https://pypi.org/project/" ++ package_name ++ "/"))))
  let homepage := pyStr hpv
  let sv ← (do
    let info3 ← subscript pypi_data "info"
    subscript info3 "summary")
  let description := pyStr (pyOr sv (.jstr ""))
  let project_urls ← (do
    let info4 ← subscript pypi_data "info"
    dictGet info4 "project_urls" (.jobj []))
  let entries ← jvalItems project_urls
  let scanned := List.foldl scanStep (.jnull, .jnull, .jnull) entries
  let api_docs_url := scanned.2.1
  let github_url := scanned.2.2
  let documentation_url ← docResolve scanned.1 project_urls homepage
  let mypy_stub_url0 : JVal :=
    if package_name ≠ "" then .jstr (typeshedURL package_name) else .jnull
  let urlsv ← dictGet pypi_data "urls" (.jarr [])
  let fileInfos ← pyIter urlsv
  let has_py_typed ← findSdist fileInfos
  let mypy_stub_url :=
    if !truthy mypy_stub_url0 && has_py_typed && truthy documentation_url then
      documentation_url
    else mypy_stub_url0
  let releasesv ← subscript pypi_data "releases"
  let release_info ← dictGet releasesv latest_version (.jarr [])
  let release_date ← releaseDateOf release_info
  let current_version := versionOrLatest version latest_version
  let is_outdated := compare_versions current_version latest_version
  pure (PackageInfo.mk package_name current_version latest_version is_outdated
    (.jstr homepage) (.jstr description) release_date security_issues
    documentation_url api_docs_url mypy_stub_url github_url)

/-- Embedding of `DependencyChecker.check_python_package`: normalize a
decoded PyPI record, converting any raised exception into the single typed
`McpError`. -/
def check_python_package (package_name : String) (version : Option String)
    (pypi_data : JVal) (security_issues : List JVal) : Except McpError PackageInfo :=
  match pypiBody package_name version pypi_data security_issues with
  | .ok p => .ok p
  | .error e => .error (python_pkg_error package_name e.msg)

/-- Body of the `try` block of `check_npm_package`, in source order. -/
def npmBody (package_name : String) (version : Option String) (npm_data : JVal) :
    Except PyErr PackageInfo := do
  let dt ← dictGet npm_data "dist-tags" (.jobj [])
  let lv ← dictGet dt "latest" (.jstr "")
  let latest_version := pyStr lv
  let dv ← dictGet npm_data "description" (.jstr "")
  let description := pyStr dv
  let hpv ← dictGet npm_data "homepage"
    (.jstr ("https://www.npmjs.com/package/" ++ package_name))
  let homepage := pyStr hpv
  let docv ← dictGet npm_data "documentation" .jnull
  let documentation_url := pyOr docv (.jstr homepage)
  let repository ← dictGet npm_data "repository" (.jobj [])
  let github_url ← githubOf repository
  let api_docs_url : JVal :=
    if truthy github_url then .jstr (pyStr github_url ++ "/blob/main/API.md") else .jnull
  let release_date ← npmReleaseDate latest_version npm_data
  let current_version := versionOrLatest version latest_version
  let is_outdated := compare_versions current_version latest_version
  let security_issues : List JVal := []
  pure (PackageInfo.mk package_name current_version latest_version is_outdated
    (.jstr homepage) (.jstr description) release_date security_issues
    documentation_url api_docs_url .jnull github_url)

/-- Embedding of `DependencyChecker.check_npm_package`. -/
def check_npm_package (package_name : String) (version : Option String)
    (npm_data : JVal) : Except McpError PackageInfo :=
  match npmBody package_name version npm_data with
  | .ok p => .ok p
  | .error e => .error (npm_pkg_error package_name e.msg)

/-- A decoded PyPI record whose `info.summary` is the given value, whose
`home_page` and `project_url` are JSON null, and whose single release file
entry has no `upload_time` key. -/
def pypiRecNoMeta (summary : JVal) : JVal :=
  .jobj [("info", .jobj [("version", .jstr "1.0.0"), ("home_page", .jnull),
    ("project_url", .jnull), ("summary", summary), ("project_urls", .jobj [])]),
    ("releases", .jobj [("1.0.0", .jarr [.jobj []])]),
    ("urls", .jarr [])]

/-- A decoded PyPI record whose `info` lacks the `summary` key. -/
def pypiRecNoSummary : JVal :=
  .jobj [("info", .jobj [("version", .jstr "1.0.0"),
    ("home_page", .jstr "https://example.org")]),
    ("releases", .jobj []), ("urls", .jarr [])]

/-- A decoded PyPI record with the given `info.project_urls` entries and all
other fields fixed. -/
def pypiRecUrls (urls : List (String × JVal)) : JVal :=
  .jobj [("info", .jobj [("version", .jstr "1.0.0"),
    ("home_page", .jstr "https://example.org"), ("project_url", .jnull),
    ("summary", .jstr "demo"), ("project_urls", .jobj urls)]),
    ("releases", .jobj []), ("urls", .jarr [])]

/-- A decoded npm record with the given `repository.url` and a fixed
`dist-tags.latest`. -/
def npmRecRepo (repo_url : String) : JVal :=
  .jobj [("dist-tags", .jobj [("latest", .jstr "1.0.0")]),
    ("repository", .jobj [("url", .jstr repo_url)])]

lemma data_mk (l : List Char) : (String.mk l).data = l := rfl

lemma ok_bind {ε α β : Type} (a : α) (f : α → Except ε β) :
    (Except.ok a : Except ε α) >>= f = f a := rfl

lemma error_bind {ε α β : Type} (e : ε) (f : α → Except ε β) :
    (Except.error e : Except ε α) >>= f = .error e := rfl

lemma except_bind_ok {ε α β : Type} {x : Except ε α} {f : α → Except ε β} {b : β} :
    (x >>= f) = Except.ok b ↔ ∃ a, x = .ok a ∧ f a = .ok b := by
  cases x with
  | ok a => simp [ok_bind]
  | error e => simp [error_bind]

lemma except_pure_ok {ε α : Type} {a b : α} :
    (Pure.pure a : Except ε α) = Except.ok b ↔ a = b := by
  constructor
  · intro h
    exact Except.ok.inj h
  · intro h
    rw [h]
    rfl

lemma lexLt_self (a : List Char) : lexLt a a = false := by
  induction a with
  | nil => rfl
  | cons c cs ih => simp [lexLt, ih]

lemma lexLt_asymm (a b : List Char) : (lexLt a b && lexLt b a) = false := by
  induction a generalizing b with
  | nil => cases b <;> simp [lexLt]
  | cons c cs ih =>
    cases b with
    | nil => simp [lexLt]
    | cons d ds =>
      simp only [lexLt]
      rcases lt_trichotomy c d with h | h | h
      · rw [if_pos h, if_neg (asymm h), if_pos h]
        simp
      · subst h
        rw [if_neg (lt_irrefl c), if_neg (lt_irrefl c), if_neg (lt_irrefl c),
          if_neg (lt_irrefl c)]
        exact ih ds
      · rw [if_neg (asymm h), if_pos h]
        simp

lemma cmpLoop_self (a : List Nat) : cmpLoop a a = 0 := by
  induction a with
  | nil => rfl
  | cons c cs ih => simp [cmpLoop, ih]

lemma cmpLoop_antisym (a b : List Nat) : cmpLoop a b = -cmpLoop b a := by
  induction a generalizing b with
  | nil => cases b <;> rfl
  | cons c cs ih =>
    cases b with
    | nil => rfl
    | cons d ds =>
      simp only [cmpLoop]
      rcases lt_trichotomy c d with h | h | h
      · rw [if_pos h, if_neg (asymm h), if_pos h]
      · subst h
        rw [if_neg (lt_irrefl c), if_neg (lt_irrefl c), if_neg (lt_irrefl c),
          if_neg (lt_irrefl c)]
        exact ih ds
      · rw [if_neg (asymm h), if_pos h, if_pos h]
        norm_num

lemma crv_eq_spec (c l : String) :
    compare_release_versions c l = specReleaseCmp (releaseParts c) (releaseParts l) := by
  unfold compare_release_versions specReleaseCmp
  have h1 : (releaseParts l).length - (releaseParts c).length
      = max (releaseParts c).length (releaseParts l).length - (releaseParts c).length := by
    omega
  have h2 : (releaseParts c ++
      List.replicate (max (releaseParts c).length (releaseParts l).length -
        (releaseParts c).length) 0).length - (releaseParts l).length
      = max (releaseParts c).length (releaseParts l).length - (releaseParts l).length := by
    simp only [List.length_append, List.length_replicate]
    omega
  simp only [h1, h2]

lemma specReleaseCmp_antisym (a b : List Nat) : specReleaseCmp a b = -specReleaseCmp b a := by
  unfold specReleaseCmp
  simp only [max_comm b.length a.length]
  exact cmpLoop_antisym _ _

lemma specReleaseCmp_self (a : List Nat) : specReleaseCmp a a = 0 := by
  unfold specReleaseCmp
  exact cmpLoop_self _

lemma crv_antisym (x y : String) :
    compare_release_versions y x = -compare_release_versions x y := by
  rw [crv_eq_spec, crv_eq_spec, specReleaseCmp_antisym]

lemma compare_self (v : String) : compare_versions v v = false := by
  simp [compare_versions]

lemma tieBreak_self (p : String) : suffixTieBreak p p = false := by
  unfold suffixTieBreak
  by_cases h : p = ""
  · simp [h]
  · simp [h, lexLt_self]

lemma digitChar_isDig {d : Nat} (h : d < 10) : isDig (Nat.digitChar d) = true := by
  interval_cases d <;> decide

lemma digitChar_toNat {d : Nat} (h : d < 10) : (Nat.digitChar d).toNat = 48 + d := by
  interval_cases d <;> decide

lemma natRepr_ne_nil (n : Nat) : natRepr n ≠ [] := by
  unfold natRepr
  split <;> simp

lemma natRepr_digits (n : Nat) : (natRepr n).all isDig = true := by
  induction n using Nat.strong_induction_on with
  | _ n ih =>
    unfold natRepr
    split
    · rename_i h
      simp [digitChar_isDig h]
    · rename_i h
      rw [List.all_append]
      have h1 := ih (n / 10) (Nat.div_lt_self (by omega) (by omega))
      have h2 := digitChar_isDig (Nat.mod_lt n (show 0 < 10 by omega))
      simp [h1, h2]

lemma natOfDigits_natRepr (n : Nat) : natOfDigits (natRepr n) = n := by
  induction n using Nat.strong_induction_on with
  | _ n ih =>
    unfold natRepr
    split
    · rename_i h
      simp [natOfDigits, digitChar_toNat h]
    · rename_i h
      have hlt : n / 10 < n := Nat.div_lt_self (by omega) (by omega)
      have ih1 := ih (n / 10) hlt
      unfold natOfDigits at ih1 ⊢
      rw [List.foldl_append, ih1]
      simp [digitChar_toNat (Nat.mod_lt n (show 0 < 10 by omega))]
      omega

lemma all_isDotDig_of_isDig (l : List Char) (h : l.all isDig = true) :
    l.all isDotDig = true := by
  induction l with
  | nil => rfl
  | cons c cs ih =>
    simp only [List.all_cons, Bool.and_eq_true] at h ⊢
    exact ⟨by simp [isDotDig, h.1], ih h.2⟩

lemma renderList_all (a : List Nat) : (renderList a).all isDotDig = true := by
  induction a with
  | nil => rfl
  | cons n tail ih =>
    cases tail with
    | nil => exact all_isDotDig_of_isDig _ (natRepr_digits n)
    | cons m rest =>
      show ((natRepr n ++ '.' :: renderList (m :: rest)).all isDotDig) = true
      rw [List.all_append]
      simp only [List.all_cons, Bool.and_eq_true]
      exact ⟨by simpa using all_isDotDig_of_isDig _ (natRepr_digits n),
        by decide, by simpa using ih⟩

lemma digitRunsAux_run (ds rest acc : List Char) (h : ds.all isDig = true) :
    digitRunsAux (ds ++ rest) acc = digitRunsAux rest (ds.reverse ++ acc) := by
  induction ds generalizing acc with
  | nil => simp
  | cons d ds ih =>
    simp only [List.all_cons, Bool.and_eq_true] at h
    show digitRunsAux (d :: (ds ++ rest)) acc = _
    rw [digitRunsAux, if_pos h.1, ih _ h.2]
    simp [List.append_assoc]

lemma digitRunsAux_nil_ne (acc : List Char) (h : acc ≠ []) :
    digitRunsAux [] acc = [acc.reverse] := by
  rw [digitRunsAux, if_neg (by simpa using h)]

lemma digitRuns_renderList (a : List Nat) : digitRuns (renderList a) = a.map natRepr := by
  induction a with
  | nil => rfl
  | cons n tail ih =>
    cases tail with
    | nil =>
      show digitRuns (natRepr n) = [natRepr n]
      unfold digitRuns
      have hr := digitRunsAux_run (natRepr n) [] [] (natRepr_digits n)
      simp only [List.append_nil] at hr
      rw [hr, digitRunsAux_nil_ne _ (by simpa using natRepr_ne_nil n)]
      simp
    | cons m rest =>
      show digitRuns (natRepr n ++ '.' :: renderList (m :: rest)) = _
      unfold digitRuns
      rw [digitRunsAux_run (natRepr n) ('.' :: renderList (m :: rest)) []
        (natRepr_digits n)]
      simp only [List.append_nil]
      rw [digitRunsAux, if_neg (by decide), if_neg (by simpa using natRepr_ne_nil n)]
      simp only [List.reverse_reverse, List.map_cons]
      exact congrArg _ ih

lemma releaseParts_render (a : List Nat) : releaseParts (renderVer a) = a := by
  unfold releaseParts renderVer
  rw [data_mk, digitRuns_renderList, List.map_map]
  have : (fun x => natOfDigits (natRepr x)) = id := by
    funext x
    exact natOfDigits_natRepr x
  simpa [Function.comp] using congrArg (fun f => List.map f a) this

lemma takeWhile_all {p : Char → Bool} (l : List Char) (h : l.all p = true) :
    l.takeWhile p = l := by
  induction l with
  | nil => rfl
  | cons c cs ih =>
    simp only [List.all_cons, Bool.and_eq_true] at h
    rw [List.takeWhile_cons, if_pos h.1, ih h.2]

lemma tryK_full (c : Char) (cs' : List Char) :
    tryK (c :: cs').length (c :: cs') = some (c :: cs', []) := by
  show tryK (cs'.length + 1) (c :: cs') = some (c :: cs', [])
  rw [tryK]
  have hd : (c :: cs').drop (cs'.length + 1) = [] := by
    rw [show cs'.length + 1 = (c :: cs').length from rfl, List.drop_length]
  rw [hd]
  show (match sepThenRest [] with
    | some g => some ((c :: cs').take (cs'.length + 1), g.getD [])
    | none => tryK cs'.length (c :: cs')) = _
  rw [show sepThenRest [] = some none from rfl]
  rw [show cs'.length + 1 = (c :: cs').length from rfl, List.take_length]
  rfl

lemma split_render (a : List Nat) : split_version (renderVer a) = (renderVer a, "") := by
  unfold split_version
  cases ha : (renderVer a).data with
  | nil =>
    simp only [ha]
    rfl
  | cons c cs' =>
    have hall : (c :: cs').all isDotDig = true := by
      rw [← ha]
      show ((renderList a).all isDotDig) = true
      exact renderList_all a
    simp only [ha, takeWhile_all _ hall, tryK_full]
    refine Prod.ext ?_ rfl
    show String.mk (c :: cs') = renderVer a
    rw [← ha]

lemma cmp_lt_general (c l : String)
    (h : specReleaseCmp (releaseParts (split_version c).1)
      (releaseParts (split_version l).1) < 0) :
    compare_versions c l = true ∧ compare_versions l c = false := by
  have hcl : c ≠ l := by
    intro he
    subst he
    rw [specReleaseCmp_self] at h
    exact absurd h (lt_irrefl 0)
  have hc1 : compare_release_versions (split_version c).1 (split_version l).1 < 0 := by
    rw [crv_eq_spec]
    exact h
  have hc2 : 0 < compare_release_versions (split_version l).1 (split_version c).1 := by
    rw [crv_antisym]
    omega
  constructor
  · simp only [compare_versions, if_neg hcl]
    rw [if_neg (show ¬ compare_release_versions (split_version c).1
      (split_version l).1 = 0 by omega)]
    simp [hc1]
  · simp only [compare_versions, if_neg (Ne.symm hcl)]
    rw [if_neg (show ¬ compare_release_versions (split_version l).1
      (split_version c).1 = 0 by omega)]
    simp [show ¬ compare_release_versions (split_version l).1
      (split_version c).1 < 0 by omega]


lemma digitRunsAux_wf (cs : List Char) :
    ∀ acc : List Char, acc.all isDig = true →
      ∀ r ∈ digitRunsAux cs acc, r ≠ [] ∧ r.all isDig = true := by
  induction cs with
  | nil =>
    intro acc hacc r hr
    unfold digitRunsAux at hr
    split at hr
    · exact absurd hr (List.not_mem_nil r)
    · rename_i hne
      rw [List.mem_singleton] at hr
      subst hr
      refine ⟨?_, by simpa using hacc⟩
      simp only [List.isEmpty_eq_true] at hne
      simpa using hne
  | cons c cs ih =>
    intro acc hacc r hr
    unfold digitRunsAux at hr
    by_cases hd : isDig c
    · rw [if_pos hd] at hr
      exact ih (c :: acc) (by simp [hd, hacc]) r hr
    · rw [if_neg hd] at hr
      by_cases he : acc.isEmpty
      · rw [if_pos he] at hr
        exact ih [] rfl r hr
      · rw [if_neg he] at hr
        rcases List.mem_cons.mp hr with hr | hr
        · subst hr
          refine ⟨?_, by simpa using hacc⟩
          simp only [List.isEmpty_eq_true] at he
          simpa using he
        · exact ih [] rfl r hr

lemma mapM_intChecked (l : List (List Char))
    (h : ∀ r ∈ l, r ≠ [] ∧ r.all isDig = true) :
    l.mapM intChecked = some (l.map natOfDigits) := by
  induction l with
  | nil => rfl
  | cons r rs ih =>
    rw [List.mapM_cons]
    have hr := h r (by simp)
    have h1 : intChecked r = some (natOfDigits r) := by
      unfold intChecked
      rw [if_pos hr]
    rw [h1, ih (fun x hx => h x (by simp [hx]))]
    rfl

lemma releasePartsChecked_eq (s : String) :
    releasePartsChecked s = some (releaseParts s) := by
  unfold releasePartsChecked releaseParts
  exact mapM_intChecked _ (digitRunsAux_wf s.data [] rfl)

lemma crvChecked_eq (c l : String) :
    crvChecked c l = some (compare_release_versions c l) := by
  unfold crvChecked compare_release_versions
  rw [releasePartsChecked_eq, releasePartsChecked_eq]
  rfl

lemma docResolve_truthy (x : JVal) (pu : JVal) (hp : String) (h : truthy x = true) :
    docResolve x pu hp = pure x := by
  unfold docResolve
  rw [h]
  simp

lemma pypiUrls_doc (urls : List (String × JVal))
    (hu : truthy (List.foldl scanStep (.jnull, .jnull, .jnull) urls).1 = true) :
    ∃ p, check_python_package "pkg" none (pypiRecUrls urls) [] = .ok p ∧
      p.documentation_url = (List.foldl scanStep (.jnull, .jnull, .jnull) urls).1 := by
  have hsplit : pypiBody "pkg" none (pypiRecUrls urls) [] =
      docResolve (List.foldl scanStep (.jnull, .jnull, .jnull) urls).1 (.jobj urls)
        "https://example.org"
      >>= fun documentation_url =>
        Except.ok (PackageInfo.mk "pkg" "1.0.0" "1.0.0" false
          (.jstr "https://example.org") (.jstr "demo") .jnull []
          documentation_url
          (List.foldl scanStep (.jnull, .jnull, .jnull) urls).2.1
          (.jstr (typeshedURL "pkg"))
          (List.foldl scanStep (.jnull, .jnull, .jnull) urls).2.2) := rfl
  unfold check_python_package
  rw [hsplit, docResolve_truthy _ _ _ hu, pure_bind]
  exact ⟨_, rfl, rfl⟩

lemma githubOf_str (s : String) (hs : isSub "github.com" s = true) :
    githubOf (.jobj [("url", .jstr s)])
      = pure (JVal.jstr (strReplace (strReplace s "git+" "") ".git" "")) := by
  unfold githubOf
  show (do
    let repo_url ← dictGet (.jobj [("url", .jstr s)]) "url" (.jstr "")
    let b ← pyIn "github.com" repo_url
    if b then
      match repo_url with
      | .jstr s => pure (JVal.jstr (strReplace (strReplace s "git+" "") ".git" ""))
      | _ => Except.error ⟨"AttributeError: value has no attribute replace"⟩
    else pure JVal.jnull) = _
  rw [show dictGet (.jobj [("url", .jstr s)]) "url" (.jstr "") = pure (.jstr s) from rfl,
    pure_bind, show pyIn "github.com" (.jstr s) = pure (isSub "github.com" s) from rfl,
    pure_bind, hs]
  simp

lemma npmRepo_split (s : String) : npmBody "pkg" none (npmRecRepo s) =
    githubOf (.jobj [("url", .jstr s)])
    >>= fun github_url =>
      Except.ok (PackageInfo.mk "pkg" "1.0.0" "1.0.0" false
        (.jstr "https://www.npmjs.com/package/pkg") (.jstr "") .jnull []
        (.jstr "https://www.npmjs.com/package/pkg")
        (if truthy github_url then .jstr (pyStr github_url ++ "/blob/main/API.md")
        else .jnull)
        .jnull github_url) := rfl

lemma pypiBody_none (name : String) (raw : JVal) (sec : List JVal) (p : PackageInfo)
    (h : pypiBody name none raw sec = .ok p) :
    p.current_version = p.latest_version ∧ p.is_outdated = false := by
  unfold pypiBody at h
  simp only [except_bind_ok, except_pure_ok] at h
  obtain ⟨a1, -, a2, -, a3, -, a4, -, a5, -, a6, -, a7, -, a8, -, a9, -, a10, -,
    a11, -, a12, -, a13, -, hfin⟩ := h
  subst hfin
  exact ⟨rfl, compare_self _⟩

lemma npmBody_none (name : String) (raw : JVal) (p : PackageInfo)
    (h : npmBody name none raw = .ok p) :
    p.current_version = p.latest_version ∧ p.is_outdated = false := by
  unfold npmBody at h
  simp only [except_bind_ok, except_pure_ok] at h
  obtain ⟨a1, -, a2, -, a3, -, a4, -, a5, -, a6, -, a7, -, a8, -, hfin⟩ := h
  subst hfin
  exact ⟨rfl, compare_self _⟩

/-- C1: whenever the release parts of the two version strings compare equal
segment-wise, `_compare_versions` returns exactly the asymmetric suffix
tie-break of the specification: true when only the current suffix is
non-empty, false when only the latest suffix is non-empty, plain
lexicographic string comparison of the suffixes when both are non-empty, and
false when both are empty. -/
theorem claim_C1 (c l : String)
    (h : compare_release_versions (split_version c).1 (split_version l).1 = 0) :
    compare_versions c l = suffixTieBreak (split_version c).2 (split_version l).2 := by
  by_cases hcl : c = l
  · subst hcl
    rw [compare_self, tieBreak_self]
  · simp only [compare_versions, suffixTieBreak, if_neg hcl, h]
    rw [if_pos trivial]

/-- C1 witness: the tie-break hypothesis holds for the claim's own example
pair, and on that pair the comparator indeed returns true one way and false
the other. -/
theorem claim_C1_witness :
    compare_release_versions (split_version "1.0.0-rc.1").1 (split_version "1.0.0").1 = 0 ∧
    compare_versions "1.0.0-rc.1" "1.0.0" = true ∧
    compare_versions "1.0.0" "1.0.0-rc.1" = false := by
  have h0 : compare_release_versions (split_version "1.0.0-rc.1").1
      (split_version "1.0.0").1 = 0 := by decide
  have h0' : compare_release_versions (split_version "1.0.0").1
      (split_version "1.0.0-rc.1").1 = 0 := by decide
  refine ⟨h0, ?_, ?_⟩
  · rw [claim_C1 "1.0.0-rc.1" "1.0.0" h0]
    decide
  · rw [claim_C1 "1.0.0" "1.0.0-rc.1" h0']
    decide

/-- C2: the release-part comparison of `_compare_versions` equals the
zero-padded integer-tuple order of the specification; consequently, for
integer tuples `a < b` in that order, the comparator on their dotted decimal
renderings returns true and on the swapped pair false; and the padding law
holds for "1.0" versus "1.0.0". -/
theorem claim_C2 :
    (∀ c l : String,
      compare_release_versions c l = specReleaseCmp (releaseParts c) (releaseParts l)) ∧
    (∀ a b : List Nat, specReleaseCmp a b < 0 →
      compare_versions (renderVer a) (renderVer b) = true ∧
      compare_versions (renderVer b) (renderVer a) = false) ∧
    compare_versions "1.0" "1.0.0" = false ∧
    compare_versions "1.0.0" "1.0" = false := by
  refine ⟨crv_eq_spec, ?_, by decide, by decide⟩
  intro a b hab
  apply cmp_lt_general
  rw [split_render, split_render, releaseParts_render, releaseParts_render]
  exact hab

/-- C2 witness: the zero-padded order hypothesis holds at the concrete tuple
pair [1, 9] < [2, 0], and the comparator orders their renderings "1.9" and
"2.0" accordingly. -/
theorem claim_C2_witness :
    specReleaseCmp [1, 9] [2, 0] < 0 ∧
    compare_versions (renderVer [1, 9]) (renderVer [2, 0]) = true ∧
    compare_versions (renderVer [2, 0]) (renderVer [1, 9]) = false :=
  ⟨by decide, (claim_C2.2.1 [1, 9] [2, 0] (by decide)).1,
    (claim_C2.2.1 [1, 9] [2, 0] (by decide)).2⟩

/-- C3: the comparator is total — with every integer-parsing step threaded
through `Option`, the checked comparator never returns `none` and agrees with
`_compare_versions` on every pair of strings, because `re.findall` only ever
hands non-empty digit runs to `int`. -/
theorem claim_C3 (c l : String) :
    compare_versions_checked c l = some (compare_versions c l) := by
  unfold compare_versions_checked compare_versions
  by_cases hcl : c = l
  · simp [hcl]
  · rw [if_neg hcl, if_neg hcl]
    simp only [crvChecked_eq, Option.bind_eq_bind, Option.some_bind]
    split_ifs <;> rfl

/-- C4: reflexivity — for every string `v`, `_compare_versions(v, v)` is
false, by the exact-string-equality short-circuit that precedes any
parsing. -/
theorem claim_C4 (v : String) : compare_versions v v = false :=
  compare_self v

/-- C9: asymmetry — `_compare_versions(a, b)` and `_compare_versions(b, a)`
are never both true. -/
theorem claim_C9 (a b : String) :
    (compare_versions a b && compare_versions b a) = false := by
  by_cases hab : a = b
  · subst hab
    rw [compare_self]
    rfl
  · have hba : ¬ b = a := fun h => hab h.symm
    simp only [compare_versions, if_neg hab, if_neg hba]
    have hanti : compare_release_versions (split_version b).1 (split_version a).1
        = -compare_release_versions (split_version a).1 (split_version b).1 :=
      crv_antisym _ _
    by_cases h0 : compare_release_versions (split_version a).1 (split_version b).1 = 0
    · have h0' : compare_release_versions (split_version b).1 (split_version a).1 = 0 := by
        omega
      rw [if_pos h0, if_pos h0']
      by_cases e1 : (split_version a).2 = "" <;> by_cases e2 : (split_version b).2 = ""
      · simp [e1, e2]
      · simp [e1, e2]
      · simp [e1, e2]
      · simp only [e1, e2]
        simp only [ne_eq, not_false_iff, true_and, and_true, if_true]
        simp [e1, e2, lexLt_asymm]
    · have h0' : ¬ compare_release_versions (split_version b).1 (split_version a).1 = 0 := by
        omega
      rw [if_neg h0, if_neg h0', hanti]
      by_cases hlt : compare_release_versions (split_version a).1 (split_version b).1 < 0
      · simp [hlt, show ¬ -compare_release_versions (split_version a).1
          (split_version b).1 < 0 by omega]
      · simp [hlt]

/-- C5 counterexample: an npm record with no `dist-tags` (hence no
`dist-tags.latest`) does not raise — `check_npm_package` returns a
`PackageInfo` with `latest_version = ""`, contradicting the claim that
normalization of a record missing a required field always raises a typed
`ExecutionError` and never returns a record. -/
theorem claim_C5_counterexample :
    ∃ p, check_npm_package "leftpad" none (.jobj []) = .ok p ∧
      p.latest_version = "" :=
  ⟨_, rfl, rfl⟩

/-- C5 (amended): only the PyPI path raises on a missing required field — a
record without `info`, or whose `info` lacks `version`, is re-signaled as
the single typed `McpError` with code `TOOL_EXECUTION_ERROR` whose message
carries the package name and the `KeyError` cause, and no record is
returned; the npm path reads every field through defaulting `.get` lookups,
so a record without `dist-tags.latest` yields a `PackageInfo` whose
`latest_version` is the empty string instead of an error. -/
theorem claim_C5 :
    (∀ (name : String) (ver : Option String) (sec : List JVal),
      check_python_package name ver (.jobj []) sec
        = .error (python_pkg_error name (keyErrStr "info"))) ∧
    (∀ (name : String) (ver : Option String) (sec : List JVal),
      check_python_package name ver (.jobj [("info", .jobj [])]) sec
        = .error (python_pkg_error name (keyErrStr "version"))) ∧
    (∀ name : String, ∃ p, check_npm_package name none (.jobj []) = .ok p ∧
      p.name = name ∧ p.latest_version = "" ∧ p.current_version = "") :=
  ⟨fun _ _ _ => rfl, fun _ _ _ => rfl, fun _ => ⟨_, rfl, rfl, rfl, rfl⟩⟩

/-- C6 counterexample: a PyPI record whose `info.summary` is JSON null and
whose first release file entry lacks `upload_time` yields
`description = ""` and `release_date = ""` — empty-string sentinels, not
`None` as the claim requires. -/
theorem claim_C6_counterexample :
    ∃ p, check_python_package "pkg" none (pypiRecNoMeta .jnull) [] = .ok p ∧
      p.description = JVal.jstr "" ∧ p.description ≠ JVal.jnull ∧
      p.release_date = JVal.jstr "" ∧ p.release_date ≠ JVal.jnull :=
  ⟨_, rfl, rfl, fun h => JVal.noConfusion h, rfl, fun h => JVal.noConfusion h⟩

/-- C6 (amended): `description` and `homepage` are always strings, never
`None`: a null (or otherwise falsy) `info.summary` yields the empty string,
and `homepage` falls back to the constructed registry URL; a first release
file entry lacking `upload_time` yields `release_date = ""` (the empty
string, not `None`); only `api_docs_url` and `github_url` are `None` when
nothing matches; and an *absent* `info.summary` key raises the typed
`ExecutionError` instead of producing a field default. -/
theorem claim_C6 (s : JVal) (hs : truthy s = false) :
    (∃ p, check_python_package "pkg" none (pypiRecNoMeta s) [] = .ok p ∧
      p.description = JVal.jstr "" ∧ p.release_date = JVal.jstr "" ∧
      p.api_docs_url = JVal.jnull ∧ p.github_url = JVal.jnull ∧
      p.homepage = JVal.jstr "https://pypi.org/project/pkg/") ∧
    (∀ name : String, check_python_package name none pypiRecNoSummary []
      = .error (python_pkg_error name (keyErrStr "summary"))) := by
  refine ⟨⟨_, rfl, ?_, rfl, rfl, rfl, rfl⟩, fun _ => rfl⟩
  simp [pyOr, hs, pyStr]

/-- C6 witness: the amended claim applied at the JSON-null summary. -/
theorem claim_C6_witness :
    truthy JVal.jnull = false ∧
    ∃ p, check_python_package "pkg" none (pypiRecNoMeta .jnull) [] = .ok p ∧
      p.description = JVal.jstr "" :=
  ⟨rfl, ((claim_C6 .jnull rfl).1).elim fun p hp => ⟨p, hp.1, hp.2.1⟩⟩

/-- C7 counterexample: with two labels both matching the documentation
category, the resulting `documentation_url` is the *second* entry's URL —
the later match replaces the earlier one, contradicting the claim that the
first matching entry wins. -/
theorem claim_C7_counterexample :
    ∃ p, check_python_package "pkg" none
      (pypiRecUrls [("Docs", .jstr "https://d1"), ("Documentation", .jstr "https://d2")]) []
      = .ok p ∧ p.documentation_url = JVal.jstr "https://d2" ∧
      p.documentation_url ≠ JVal.jstr "https://d1" :=
  ⟨_, rfl, rfl, fun h => absurd (JVal.jstr.inj h) (by decide)⟩

/-- C7 (amended): the *last* matching entry in the mapping's order
determines each category's URL — every matching label unconditionally
overwrites the category slot, so appending a documentation-matching entry
with a truthy URL to any `project_urls` mapping makes that URL the
resulting `documentation_url`, whatever earlier matches preceded it. -/
theorem claim_C7 (fs : List (String × JVal)) (l : String) (u : JVal)
    (hl : isSub "documentation" (lowerStr l) = true) (hu : truthy u = true) :
    ∃ p, check_python_package "pkg" none (pypiRecUrls (fs ++ [(l, u)])) [] = .ok p ∧
      p.documentation_url = u := by
  have hscan : (List.foldl scanStep (.jnull, .jnull, .jnull) (fs ++ [(l, u)])).1 = u := by
    rw [List.foldl_append]
    simp [scanStep, hl]
  have h := pypiUrls_doc (fs ++ [(l, u)]) (by rw [hscan]; exact hu)
  rw [hscan] at h
  exact h

/-- C7 witness: the amended claim applied to a mapping whose "Docs" entry is
followed by a "Documentation" entry. -/
theorem claim_C7_witness :
    isSub "documentation" (lowerStr "Documentation") = true ∧
    truthy (JVal.jstr "https://d2") = true ∧
    ∃ p, check_python_package "pkg" none
      (pypiRecUrls ([("Docs", JVal.jstr "https://d1")] ++ [("Documentation", JVal.jstr "https://d2")])) []
      = .ok p ∧ p.documentation_url = JVal.jstr "https://d2" :=
  ⟨by decide, rfl,
    claim_C7 [("Docs", .jstr "https://d1")] "Documentation" (.jstr "https://d2")
      (by decide) rfl⟩

/-- C8 counterexample: `str.replace` removes every occurrence of ".git", so
the repository URL "https://www.github.com/org/repo.git" is normalized to
"https://wwwhub.com/org/repo" (the ".git" inside "www.github.com" is also
removed), not to "https://www.github.com/org/repo" as the claim's
leading/trailing-only reading requires. -/
theorem claim_C8_counterexample :
    ∃ p, check_npm_package "pkg" none
      (npmRecRepo "https://www.github.com/org/repo.git") = .ok p ∧
      p.github_url = JVal.jstr "https://wwwhub.com/org/repo" ∧
      p.github_url ≠ JVal.jstr "https://www.github.com/org/repo" :=
  ⟨_, rfl, rfl, fun h => absurd (JVal.jstr.inj h) (by decide)⟩

/-- C8 (amended): for a repository URL containing "github.com", the
resulting `github_url` is the URL with *every* occurrence of "git+" removed
and then *every* occurrence of ".git" removed (not just a leading prefix
and trailing suffix), and `api_docs_url` is `github_url + "/blob/main/API.md"`
exactly when that normalized URL is non-empty, else `None`. -/
theorem claim_C8 (s : String) (hs : isSub "github.com" s = true) :
    ∃ p, check_npm_package "pkg" none (npmRecRepo s) = .ok p ∧
      p.github_url = JVal.jstr (strReplace (strReplace s "git+" "") ".git" "") ∧
      p.api_docs_url = (if strReplace (strReplace s "git+" "") ".git" "" ≠ "" then
        JVal.jstr (strReplace (strReplace s "git+" "") ".git" "" ++ "/blob/main/API.md")
      else JVal.jnull) := by
  unfold check_npm_package
  rw [npmRepo_split, githubOf_str s hs, pure_bind]
  refine ⟨_, rfl, rfl, ?_⟩
  simp [truthy, pyStr]

/-- C8 witness: the amended claim applied to a repository URL with a
leading "git+" and a trailing ".git". -/
theorem claim_C8_witness :
    isSub "github.com" "git+https://github.com/org/repo.git" = true ∧
    ∃ p, check_npm_package "pkg" none
      (npmRecRepo "git+https://github.com/org/repo.git") = .ok p ∧
      p.github_url = JVal.jstr (strReplace
        (strReplace "git+https://github.com/org/repo.git" "git+" "") ".git" "") :=
  ⟨by decide,
    (claim_C8 "git+https://github.com/org/repo.git" (by decide)).elim
      fun p hp => ⟨p, hp.1, hp.2.1⟩⟩

/-- C10: whenever the caller supplies no version and normalization succeeds,
the returned record has `current_version` equal to `latest_version` and
`is_outdated = false`, in both the PyPI and the npm paths. -/
theorem claim_C10 :
    (∀ (name : String) (raw : JVal) (sec : List JVal) (p : PackageInfo),
      check_python_package name none raw sec = .ok p →
      p.current_version = p.latest_version ∧ p.is_outdated = false) ∧
    (∀ (name : String) (raw : JVal) (p : PackageInfo),
      check_npm_package name none raw = .ok p →
      p.current_version = p.latest_version ∧ p.is_outdated = false) := by
  constructor
  · intro name raw sec p h
    unfold check_python_package at h
    cases hb : pypiBody name none raw sec with
    | error e =>
      rw [hb] at h
      cases h
    | ok q =>
      rw [hb] at h
      have hqp := Except.ok.inj h
      subst hqp
      exact pypiBody_none name raw sec q hb
  · intro name raw p h
    unfold check_npm_package at h
    cases hb : npmBody name none raw with
    | error e =>
      rw [hb] at h
      cases h
    | ok q =>
      rw [hb] at h
      have hqp := Except.ok.inj h
      subst hqp
      exact npmBody_none name raw q hb

/-- C10 witness: the claim applied to a concrete PyPI record and a concrete
npm record, with no caller-supplied version. -/
theorem claim_C10_witness :
    (∃ p, check_python_package "pkg" none (pypiRecUrls []) [] = .ok p ∧
      p.current_version = p.latest_version ∧ p.is_outdated = false) ∧
    (∃ p, check_npm_package "pkg" none
      (JVal.jobj [("dist-tags", .jobj [("latest", .jstr "2.0.0")])]) = .ok p ∧
      p.current_version = p.latest_version ∧ p.is_outdated = false) := by
  constructor
  · obtain ⟨h1, h2⟩ := claim_C10.1 "pkg" (pypiRecUrls []) [] _ rfl
    exact ⟨_, rfl, h1, h2⟩
  · obtain ⟨h1, h2⟩ := claim_C10.2 "pkg"
      (JVal.jobj [("dist-tags", .jobj [("latest", .jstr "2.0.0")])]) _ rfl
    exact ⟨_, rfl, h1, h2⟩

end Versade
